import Mathlib

/-!
Verification of the embedded-fatfs block-device adapters and SD-SPI driver.

The definitions below are shallow embeddings of the Rust sources:
  - `block-device-adapters/src/stream_slice.rs` (`StreamSlice`)
  - `block-device-adapters/src/buf_stream.rs` (`BufStream`)
  - `sdspi/src/lib.rs` (`SdSpi`, `crc7`, `crc16`)
Machine integers (`u8`, `u16`, `u32`, `u64`, `i64`, `usize`) are modelled as
`Nat`/`Int` with explicit reductions `% 2^w` where the Rust code wraps, and
explicit cast functions where the Rust code casts between signed and
unsigned types.  Fallible operations return an `Except` result paired with
the post-state (the Rust methods take `&mut self`, so partial mutations
before an early `?` return are visible to the caller).
-/

/-- Interpret a `u64` bit pattern as an `i64` value (the Rust `as i64` cast). -/
def i64ofU64 (n : Nat) : Int :=
  if n < 2 ^ 63 then (n : Int) else (n : Int) - 2 ^ 64

/-- Interpret an integer as a `u64` bit pattern (the Rust `as u64` cast,
two's complement wrap modulo `2^64`). -/
def u64ofI64 (v : Int) : Nat :=
  (v % 2 ^ 64).toNat

/-! ## The StreamSlice adapter, from block-device-adapters/src/stream_slice.rs

The inner object is any `Read + Write + Seek` stream.  We model an arbitrary
well-behaved inner stream by an absolute position together with a schedule
`caps` of per-call service limits: each read/write call serves
`min requested cap` bytes (so the inner stream returns at most the requested
count and advances its position by the count it returns), and seek sets the
absolute position.  This is exactly the assumption space of the spec
sentence about `StreamSlice` invariants. -/

/-- Model of the inner `Read + Write + Seek` stream wrapped by `StreamSlice`. -/
structure InnerStream where
  pos : Nat
  caps : List Nat
deriving DecidableEq

/-- Inner read of `k` requested bytes: serves `min k cap`, advances `pos`. -/
def innerReadCount (i : InnerStream) (k : Nat) : InnerStream × Nat :=
  let c := min k (i.caps.headD k)
  ({ pos := i.pos + c, caps := i.caps.tail }, c)

/-- Inner write of `k` offered bytes: accepts `min k cap`, advances `pos`. -/
def innerWriteCount (i : InnerStream) (k : Nat) : InnerStream × Nat :=
  let c := min k (i.caps.headD k)
  ({ pos := i.pos + c, caps := i.caps.tail }, c)

/-- Inner absolute seek (`SeekFrom::Start`). -/
def innerSeekStart (i : InnerStream) (x : Nat) : InnerStream :=
  { i with pos := x }

/-- The three `embedded_io_async::SeekFrom` variants (`Start(u64)`,
`End(i64)`, `Current(i64)`). -/
inductive SeekPos where
  | start (x : Nat)
  | fromEnd (x : Int)
  | current (x : Int)
deriving DecidableEq

/-- `StreamSliceError<T>` from stream_slice.rs. -/
inductive SliceErr where
  | invalidSeek (v : Int)
  | writeZero
  | other
deriving DecidableEq

/-- `StreamSlice` state: inner stream, `start_offset`, `current_offset`,
`size`. -/
structure StreamSlice where
  inner : InnerStream
  startOffset : Nat
  currentOffset : Nat
  size : Nat
deriving DecidableEq

namespace StreamSlice

/-- `StreamSlice::new`: seeks the inner stream to `start_offset` and has
size `end_offset - start_offset` (the Rust code debug-asserts
`end_offset >= start_offset`). -/
def new (inner : InnerStream) (startOffset endOffset : Nat) : StreamSlice :=
  { inner := innerSeekStart inner startOffset
    startOffset := startOffset
    currentOffset := 0
    size := endOffset - startOffset }

/-- `StreamSlice::read` for a caller buffer of length `k`:
`max_read_size = min (size - current_offset) k`, delegate to the inner
read, advance the cursor by the count the inner stream returned. -/
def read (s : StreamSlice) (k : Nat) : Except SliceErr Nat × StreamSlice :=
  let maxReadSize := min (s.size - s.currentOffset) k
  let r := innerReadCount s.inner maxReadSize
  (.ok r.2, { s with inner := r.1, currentOffset := s.currentOffset + r.2 })

/-- `StreamSlice::write` for a caller buffer of length `k`:
`max_write_size = min (size - current_offset) k`, delegate to the inner
write; if the inner write returned `0` fail with `WriteZero` (the inner
mutation survives, the cursor does not advance); otherwise advance the
cursor. -/
def write (s : StreamSlice) (k : Nat) : Except SliceErr Nat × StreamSlice :=
  let maxWriteSize := min (s.size - s.currentOffset) k
  let r := innerWriteCount s.inner maxWriteSize
  if r.2 = 0 then
    (.error .writeZero, { s with inner := r.1 })
  else
    (.ok r.2, { s with inner := r.1, currentOffset := s.currentOffset + r.2 })

/-- `StreamSlice::seek`: computes the new offset as an `i64`, rejects
offsets below `0` or above `size` with `InvalidSeek`, otherwise seeks the
inner stream to `start_offset + new_offset` and records the cursor. -/
def seek (s : StreamSlice) (pos : SeekPos) : Except SliceErr Nat × StreamSlice :=
  let newOffset : Int :=
    match pos with
    | .current x => i64ofU64 s.currentOffset + x
    | .start x => i64ofU64 x
    | .fromEnd x => i64ofU64 s.size + x
  if newOffset < 0 ∨ u64ofI64 newOffset > s.size then
    (.error (.invalidSeek newOffset), s)
  else
    (.ok (u64ofI64 newOffset),
      { s with inner := innerSeekStart s.inner (s.startOffset + u64ofI64 newOffset)
               currentOffset := u64ofI64 newOffset })

/-- The spec invariant for `StreamSlice`: the cursor stays within the slice
and the inner position tracks `start + cursor`. -/
def Inv (s : StreamSlice) : Prop :=
  s.currentOffset ≤ s.size ∧ s.inner.pos = s.startOffset + s.currentOffset

instance (s : StreamSlice) : Decidable s.Inv := by
  unfold Inv
  infer_instance

end StreamSlice

/-- Casting a `Nat` below `2^63` to `i64` and back to `u64` is the
identity. -/
theorem u64ofI64_i64ofU64 (n : Nat) (h : n < 2 ^ 63) :
    u64ofI64 (i64ofU64 n) = n := by
  simp only [i64ofU64, u64ofI64, if_pos h]
  have h64 : (n : Int) < 2 ^ 64 := by
    have := h
    omega
  rw [Int.emod_eq_of_lt (by omega) h64]
  simp

/-- C5: for every `StreamSlice` over a well-behaved inner stream (reads and
writes return at most the requested count and advance the position by the
returned count, seek sets the absolute position), the invariant
`0 ≤ cursor ≤ size ∧ inner.position = start + cursor` is established by
`new` (when `start_offset ≤ end_offset`) and preserved by every successful
`read`, `write` and `seek`. -/
theorem streamSlice_invariant_preserved :
    (∀ (i : InnerStream) (a b : Nat), a ≤ b → (StreamSlice.new i a b).Inv) ∧
    (∀ (s : StreamSlice) (k : Nat), s.Inv → (s.read k).2.Inv) ∧
    (∀ (s : StreamSlice) (k r : Nat) (s' : StreamSlice), s.Inv →
      s.write k = (.ok r, s') → s'.Inv) ∧
    (∀ (s : StreamSlice) (p : SeekPos) (r : Nat) (s' : StreamSlice), s.Inv →
      s.seek p = (.ok r, s') → s'.Inv) := by
  refine ⟨fun i a b _ => ?_, fun s k hs => ?_, fun s k r s' hs hw => ?_,
    fun s p r s' hs hw => ?_⟩
  · exact ⟨Nat.zero_le _, rfl⟩
  · obtain ⟨h1, h2⟩ := hs
    unfold StreamSlice.read innerReadCount
    refine ⟨?_, ?_⟩ <;> simp <;> omega
  · obtain ⟨h1, h2⟩ := hs
    unfold StreamSlice.write at hw
    by_cases h0 : (innerWriteCount s.inner (min (s.size - s.currentOffset) k)).2 = 0
    · rw [if_pos h0] at hw
      exact absurd hw (by simp)
    · rw [if_neg h0] at hw
      obtain ⟨-, hst⟩ := Prod.mk.injEq .. ▸ hw
      subst hst
      unfold innerWriteCount
      refine ⟨?_, ?_⟩ <;> simp [innerWriteCount] <;> omega
  · simp only [StreamSlice.seek] at hw
    split at hw
    · exact absurd hw (by simp)
    · rename_i hcond
      cases hw
      push_neg at hcond
      exact ⟨hcond.2, rfl⟩

/-- Witness for C5 at concrete inputs: a fresh slice over bytes 2..7, then a
read of 3 bytes, a write of 2 bytes and a seek to offset 3 all preserve the
invariant. -/
theorem streamSlice_invariant_preserved_witness :
    (StreamSlice.new ⟨0, []⟩ 2 7).Inv ∧
    ((StreamSlice.new ⟨0, []⟩ 2 7).read 3).2.Inv ∧
    (StreamSlice.mk ⟨4, []⟩ 2 2 5).Inv ∧
    (StreamSlice.mk ⟨5, []⟩ 2 3 5).Inv := by
  have h0 : (StreamSlice.new ⟨0, []⟩ 2 7).Inv :=
    streamSlice_invariant_preserved.1 ⟨0, []⟩ 2 7 (by decide)
  refine ⟨h0, streamSlice_invariant_preserved.2.1 (StreamSlice.new ⟨0, []⟩ 2 7) 3 h0, ?_, ?_⟩
  · exact streamSlice_invariant_preserved.2.2.1 (StreamSlice.new ⟨0, []⟩ 2 7) 2 2
      (StreamSlice.mk ⟨4, []⟩ 2 2 5) h0 rfl
  · exact streamSlice_invariant_preserved.2.2.2 (StreamSlice.new ⟨0, []⟩ 2 7)
      (.start 3) 3 (StreamSlice.mk ⟨5, []⟩ 2 3 5) h0 rfl

/-- C6 counterexample: the claim says a zero-length write succeeds, but on a
slice of size 5 at cursor 0 a zero-length write fails with `WriteZero`
(the inner write returns 0 and the code checks only `bytes_written == 0`,
not `buf.len() > 0`). -/
theorem streamSlice_write_empty_fails :
    ((StreamSlice.new ⟨0, []⟩ 0 5).write 0).1 = .error .writeZero := by
  rfl

/-- C6 amended: `write` truncates the request to
`n = min (size - cursor) (buf.len())` and fails with `WriteZero` exactly
when the inner write returns 0 — which includes every zero-length write —
otherwise it advances the cursor by the inner count, which is at most
`n`. -/
theorem streamSlice_write_truncates (s : StreamSlice) (k : Nat) :
    ((s.write k).1 = .error .writeZero ↔
      (innerWriteCount s.inner (min (s.size - s.currentOffset) k)).2 = 0) ∧
    (∀ r s', s.write k = (.ok r, s') →
      r = (innerWriteCount s.inner (min (s.size - s.currentOffset) k)).2 ∧
      s'.currentOffset = s.currentOffset + r ∧
      r ≤ min (s.size - s.currentOffset) k) := by
  constructor
  · simp only [StreamSlice.write]
    split
    · rename_i h
      simpa using h
    · rename_i h
      simp [h]
  · intro r s' hw
    simp only [StreamSlice.write] at hw
    split at hw
    · exact absurd hw (by simp)
    · cases hw
      refine ⟨rfl, rfl, ?_⟩
      simp only [innerWriteCount]
      exact Nat.min_le_left _ _

/-- Witness for the amended C6 at a concrete successful write. -/
theorem streamSlice_write_truncates_witness :
    2 = (innerWriteCount (StreamSlice.new ⟨0, []⟩ 0 5).inner
          (min ((StreamSlice.new ⟨0, []⟩ 0 5).size -
            (StreamSlice.new ⟨0, []⟩ 0 5).currentOffset) 2)).2 ∧
    (StreamSlice.mk ⟨2, []⟩ 0 2 5).currentOffset =
      (StreamSlice.new ⟨0, []⟩ 0 5).currentOffset + 2 ∧
    2 ≤ min ((StreamSlice.new ⟨0, []⟩ 0 5).size -
      (StreamSlice.new ⟨0, []⟩ 0 5).currentOffset) 2 :=
  (streamSlice_write_truncates (StreamSlice.new ⟨0, []⟩ 0 5) 2).2 2
    (StreamSlice.mk ⟨2, []⟩ 0 2 5) rfl

/-! ## The BufStream adapter, from block-device-adapters/src/buf_stream.rs

The inner `BlockDevice<SIZE>` is modelled as a flat byte list together with
a log of the block transfers issued against it and three failure-injection
flags (a set flag makes the corresponding device operation return its
error).  `BufStream` keeps a one-block cache `buffer`, the cached block
index `current_block` (initially `u32::MAX`), the byte cursor
`current_offset` and the `dirty` flag.  The buffer-alignment check
`buf.as_ptr() as usize % ALIGN == 0` is modelled by carrying the byte
address `addr` of the caller's buffer. -/

/-- One transfer performed against the inner block device. -/
inductive BlockEvt where
  | readEvt (block : Nat) (count : Nat)
  | writeEvt (block : Nat) (count : Nat)
deriving DecidableEq

/-- Model of a `BlockDevice<SIZE>`: flat bytes, a transfer log, and
failure-injection flags for the three trait methods. -/
structure BlockDev where
  bytes : List Nat
  log : List BlockEvt
  failReads : Bool
  failWrites : Bool
  failSize : Bool
deriving DecidableEq

/-- The bytes a block read of `count` blocks at block index `block`
returns (out-of-range bytes read as 0 so that a read always fills the
caller's buffer, as the `BlockDevice` contract requires). -/
def devReadBytes (SIZE : Nat) (d : BlockDev) (block count : Nat) : List Nat :=
  let raw := (d.bytes.drop (block * SIZE)).take (count * SIZE)
  raw ++ List.replicate (count * SIZE - raw.length) 0

/-- `BlockDevice::read` of `count` contiguous blocks starting at `block`. -/
def devRead (SIZE : Nat) (d : BlockDev) (block count : Nat) :
    Except Unit (List Nat) × BlockDev :=
  if d.failReads then (.error (), d)
  else (.ok (devReadBytes SIZE d block count),
    { d with log := d.log ++ [.readEvt block count] })

/-- `BlockDevice::write` of `data` (a whole number of blocks) starting at
block index `block`. -/
def devWrite (SIZE : Nat) (d : BlockDev) (block : Nat) (data : List Nat) :
    Except Unit Unit × BlockDev :=
  if d.failWrites then (.error (), d)
  else (.ok (),
    { d with
      bytes := d.bytes.take (block * SIZE) ++ data ++
        d.bytes.drop (block * SIZE + data.length)
      log := d.log ++ [.writeEvt block (data.length / SIZE)] })

/-- `BlockDevice::size` in bytes. -/
def devSize (d : BlockDev) : Except Unit Nat × BlockDev :=
  if d.failSize then (.error (), d) else (.ok d.bytes.length, d)

/-- `BufStream` state from buf_stream.rs. -/
structure BufStream where
  dev : BlockDev
  buffer : List Nat
  currentBlock : Nat
  currentOffset : Nat
  dirty : Bool
deriving DecidableEq

namespace BufStream

/-- `BufStream::new`: zeroed buffer, `current_block = u32::MAX`, offset 0,
not dirty. -/
def new (SIZE : Nat) (dev : BlockDev) : BufStream :=
  { dev := dev
    buffer := List.replicate SIZE 0
    currentBlock := 2 ^ 32 - 1
    currentOffset := 0
    dirty := false }

/-- `BufStream::flush`: if dirty, first clear the dirty flag, then write
the cached buffer to `current_block` (so an error from the device write
propagates after the flag was already cleared). -/
def flush (SIZE : Nat) (s : BufStream) : Except Unit Unit × BufStream :=
  if s.dirty then
    let s1 := { s with dirty := false }
    match devWrite SIZE s1.dev s1.currentBlock s1.buffer with
    | (.error e, d) => (.error e, { s1 with dev := d })
    | (.ok _, d) => (.ok (), { s1 with dev := d })
  else (.ok (), s)

/-- `BufStream::check_cache`: if the cursor has moved to a new block,
flush the (possibly dirty) cached block and load the new one. -/
def checkCache (SIZE : Nat) (s : BufStream) : Except Unit Unit × BufStream :=
  let blockStart := s.currentOffset / SIZE
  if blockStart ≠ s.currentBlock then
    match flush SIZE s with
    | (.error e, s1) => (.error e, s1)
    | (.ok _, s1) =>
      match devRead SIZE s1.dev blockStart 1 with
      | (.error e, d) => (.error e, { s1 with dev := d })
      | (.ok blk, d) =>
        (.ok (), { s1 with dev := d, buffer := blk, currentBlock := blockStart })
  else (.ok (), s)

/-- The loop body of `BufStream::read` (one iteration per recursive call;
`fuel` bounds the iteration count, `addr` is the byte address of the
remaining caller buffer, `len` its remaining length, `acc` the bytes
produced so far). -/
def readGo (SIZE ALIGN : Nat) :
    Nat → Nat → Nat → List Nat → BufStream → Except Unit (List Nat) × BufStream
  | 0, _, _, _, s => (.error (), s)
  | fuel + 1, addr, len, acc, s =>
    if len % SIZE = 0 ∧ addr % ALIGN = 0 ∧ s.currentOffset % SIZE = 0 then
      -- direct mode: one transfer of len / SIZE blocks into the caller buffer
      match devRead SIZE s.dev (s.currentOffset / SIZE) (len / SIZE) with
      | (.error e, d) => (.error e, { s with dev := d })
      | (.ok data, d) =>
        (.ok (acc ++ data), { s with dev := d, currentOffset := s.currentOffset + len })
    else
      match checkCache SIZE s with
      | (.error e, s1) => (.error e, s1)
      | (.ok _, s1) =>
        let bufferOffset := s1.currentOffset % SIZE
        let stop := min (bufferOffset + len) SIZE
        let n := stop - bufferOffset
        let acc2 := acc ++ (s1.buffer.drop bufferOffset).take n
        let s2 := { s1 with currentOffset := s1.currentOffset + n }
        if len - n = 0 then (.ok acc2, s2)
        else readGo SIZE ALIGN fuel (addr + n) (len - n) acc2 s2

/-- `BufStream::read` into a caller buffer of length `len` at byte address
`addr` (the loop runs at most `len + 1` iterations since every partial
iteration makes progress). -/
def read (SIZE ALIGN addr len : Nat) (s : BufStream) :
    Except Unit (List Nat) × BufStream :=
  readGo SIZE ALIGN (len + 1) addr len [] s

/-- The loop body of `BufStream::write`. -/
def writeGo (SIZE ALIGN : Nat) :
    Nat → Nat → List Nat → Nat → BufStream → Except Unit Nat × BufStream
  | 0, _, _, _, s => (.error (), s)
  | fuel + 1, addr, buf, total, s =>
    if buf.length % SIZE = 0 ∧ addr % ALIGN = 0 ∧ s.currentOffset % SIZE = 0 then
      -- direct mode: one transfer of buf.len() / SIZE blocks from the caller buffer
      match devWrite SIZE s.dev (s.currentOffset / SIZE) buf with
      | (.error e, d) => (.error e, { s with dev := d })
      | (.ok _, d) =>
        (.ok (total + buf.length),
          { s with dev := d, currentOffset := s.currentOffset + buf.length })
    else
      match checkCache SIZE s with
      | (.error e, s1) => (.error e, s1)
      | (.ok _, s1) =>
        let bufferOffset := s1.currentOffset % SIZE
        let stop := min (bufferOffset + buf.length) SIZE
        let n := stop - bufferOffset
        let s2 := { s1 with
          buffer := s1.buffer.take bufferOffset ++ buf.take n ++ s1.buffer.drop stop
          dirty := true }
        match (if stop = SIZE then flush SIZE s2 else (.ok (), s2)) with
        | (.error e, s3) => (.error e, s3)
        | (.ok _, s3) =>
          let s4 := { s3 with currentOffset := s3.currentOffset + n }
          if buf.length - n = 0 then (.ok (total + n), s4)
          else writeGo SIZE ALIGN fuel (addr + n) (buf.drop n) (total + n) s4

/-- `BufStream::write` of the bytes `buf` located at byte address `addr`. -/
def write (SIZE ALIGN addr : Nat) (buf : List Nat) (s : BufStream) :
    Except Unit Nat × BufStream :=
  writeGo SIZE ALIGN (buf.length + 1) addr buf 0 s

/-- `BufStream::seek`: `Start(x)` sets the cursor to `x`; `End(x)` sets it
to `(size as i64 - x) as u64`; `Current(x)` sets it to
`(current_offset as i64 + x) as u64`.  Only `End` consults the device. -/
def seek (s : BufStream) (pos : SeekPos) : Except Unit Nat × BufStream :=
  match pos with
  | .start x => (.ok x, { s with currentOffset := x })
  | .fromEnd x =>
    match devSize s.dev with
    | (.error e, d) => (.error e, { s with dev := d })
    | (.ok sz, d) =>
      let off := u64ofI64 (i64ofU64 sz - x)
      (.ok off, { s with dev := d, currentOffset := off })
  | .current x =>
    let off := u64ofI64 (i64ofU64 s.currentOffset + x)
    (.ok off, { s with currentOffset := off })

end BufStream

/-- C10: `seek(End(x))` sets the cursor to `(size as i64 - x) as u64` — it
subtracts `x` from the device size — and `seek(Start(x))` and
`seek(Current(x))` always succeed and change nothing but the cursor (no
device call, no cache change). -/
theorem bufStream_seek_spec (s : BufStream) (x : Int) (y : Nat)
    (h : s.dev.failSize = false) :
    BufStream.seek s (.fromEnd x) =
      (.ok (u64ofI64 (i64ofU64 s.dev.bytes.length - x)),
        { s with currentOffset := u64ofI64 (i64ofU64 s.dev.bytes.length - x) }) ∧
    BufStream.seek s (.start y) = (.ok y, { s with currentOffset := y }) ∧
    BufStream.seek s (.current x) =
      (.ok (u64ofI64 (i64ofU64 s.currentOffset + x)),
        { s with currentOffset := u64ofI64 (i64ofU64 s.currentOffset + x) }) := by
  refine ⟨?_, rfl, rfl⟩
  simp [BufStream.seek, devSize, h]

/-- Witness for C10 at a concrete state: seeking to `End(3)` on an
8-byte device lands the cursor at byte 5, and `Start`/`Current` seeks only
move the cursor. -/
theorem bufStream_seek_spec_witness :
    (BufStream.mk ⟨List.replicate 8 0, [], false, false, false⟩
        (List.replicate 4 0) (2 ^ 32 - 1) 0 false).dev.failSize = false ∧
    BufStream.seek
      (BufStream.mk ⟨List.replicate 8 0, [], false, false, false⟩
        (List.replicate 4 0) (2 ^ 32 - 1) 0 false) (.fromEnd 3) =
      (.ok 5, BufStream.mk ⟨List.replicate 8 0, [], false, false, false⟩
        (List.replicate 4 0) (2 ^ 32 - 1) 5 false) := by
  refine ⟨rfl, ?_⟩
  have h := (bufStream_seek_spec
    (BufStream.mk ⟨List.replicate 8 0, [], false, false, false⟩
      (List.replicate 4 0) (2 ^ 32 - 1) 0 false) 3 0 rfl).1
  rw [h]
  rfl

/-- C4: on a device whose writes succeed, `flush` returns `Ok`, performs a
device write of the cached buffer to `current_block` iff `dirty` was set,
clears the dirty flag, leaves the cached block index, buffer contents and
cursor unchanged (the cache is not invalidated), and a second `flush` is a
no-op on the resulting state. -/
theorem bufStream_flush_spec (SIZE : Nat) (s : BufStream)
    (h : s.dev.failWrites = false) :
    ∃ s', BufStream.flush SIZE s = (.ok (), s') ∧
      s'.dirty = false ∧
      s'.buffer = s.buffer ∧
      s'.currentBlock = s.currentBlock ∧
      s'.currentOffset = s.currentOffset ∧
      s'.dev.log = s.dev.log ++
        (if s.dirty then [BlockEvt.writeEvt s.currentBlock (s.buffer.length / SIZE)]
         else []) ∧
      BufStream.flush SIZE s' = (.ok (), s') := by
  cases hd : s.dirty
  · exact ⟨s, by simp [BufStream.flush, hd], hd, rfl, rfl, rfl, by simp [hd],
      by simp [BufStream.flush, hd]⟩
  · refine ⟨{ s with
                dirty := false
                dev := { s.dev with
                          bytes := s.dev.bytes.take (s.currentBlock * SIZE) ++ s.buffer ++
                            s.dev.bytes.drop (s.currentBlock * SIZE + s.buffer.length)
                          log := s.dev.log ++
                            [.writeEvt s.currentBlock (s.buffer.length / SIZE)] } },
      ?_, rfl, rfl, rfl, rfl, by simp [hd], by simp [BufStream.flush]⟩
    simp [BufStream.flush, hd, devWrite, h]

/-- Witness for C4 at a concrete dirty state. -/
theorem bufStream_flush_spec_witness :
    (BufStream.mk ⟨List.replicate 8 0, [], false, false, false⟩
        [1, 2, 3, 4] 0 2 true).dev.failWrites = false ∧
    ∃ s', BufStream.flush 4
        (BufStream.mk ⟨List.replicate 8 0, [], false, false, false⟩
          [1, 2, 3, 4] 0 2 true) = (.ok (), s') ∧
      s'.dirty = false ∧
      s'.buffer = [1, 2, 3, 4] ∧
      s'.currentBlock = 0 ∧
      s'.currentOffset = 2 ∧
      s'.dev.log = [] ++
        (if true then [BlockEvt.writeEvt 0 ((4 : Nat) / 4)] else []) ∧
      BufStream.flush 4 s' = (.ok (), s') :=
  ⟨rfl, bufStream_flush_spec 4
    (BufStream.mk ⟨List.replicate 8 0, [], false, false, false⟩
      [1, 2, 3, 4] 0 2 true) rfl⟩

/-- C3 counterexample: with a dirty cache and a failing device write,
`flush` returns the error but the dirty flag has already been cleared —
contradicting the claim that the dirty flag is still set afterwards. -/
theorem bufStream_flush_error_cex :
    BufStream.flush 4
      (BufStream.mk ⟨List.replicate 8 0, [], false, true, false⟩
        [1, 2, 3, 4] 0 2 true) =
      (.error (), BufStream.mk ⟨List.replicate 8 0, [], false, true, false⟩
        [1, 2, 3, 4] 0 2 false) := by
  rfl

/-- C3 amended: `flush` clears the dirty flag before attempting the device
write, so when the write fails the error is returned with `dirty = false`
(a subsequent `flush` will NOT retry the write); the cached buffer
contents and cached-block index are unchanged. -/
theorem bufStream_flush_error_state (SIZE : Nat) (s : BufStream)
    (hd : s.dirty = true) (hw : s.dev.failWrites = true) :
    BufStream.flush SIZE s = (.error (), { s with dirty := false }) ∧
    BufStream.flush SIZE { s with dirty := false } =
      (.ok (), { s with dirty := false }) := by
  constructor
  · simp [BufStream.flush, hd, devWrite, hw]
  · simp [BufStream.flush]

/-- Witness for the amended C3 at a concrete state. -/
theorem bufStream_flush_error_state_witness :
    (BufStream.mk ⟨[9, 9], [], false, true, false⟩ [7, 7] 0 0 true).dirty = true ∧
    BufStream.flush 2 (BufStream.mk ⟨[9, 9], [], false, true, false⟩ [7, 7] 0 0 true) =
      (.error (), BufStream.mk ⟨[9, 9], [], false, true, false⟩ [7, 7] 0 0 false) :=
  ⟨rfl, (bufStream_flush_error_state 2
    (BufStream.mk ⟨[9, 9], [], false, true, false⟩ [7, 7] 0 0 true) rfl rfl).1⟩

/-- C2: when the remaining buffer length is a nonzero multiple of `SIZE`,
the buffer address is `ALIGN`-aligned and the cursor sits on a block
boundary, `read` and `write` take the direct path: exactly one device
transfer of `len / SIZE` contiguous blocks starting at block
`cursor / SIZE`, the cache buffer, cached block index and dirty flag are
untouched, the cursor advances by the buffer length, and the full length
is returned. -/
theorem bufStream_direct_mode (SIZE ALIGN addr len : Nat) (buf : List Nat)
    (s : BufStream)
    (hlen0 : len ≠ 0) (hlen : len % SIZE = 0)
    (_hbuf0 : buf ≠ []) (hbuf : buf.length % SIZE = 0)
    (haddr : addr % ALIGN = 0) (hoff : s.currentOffset % SIZE = 0)
    (hfr : s.dev.failReads = false) (hfw : s.dev.failWrites = false) :
    (BufStream.read SIZE ALIGN addr len s =
      (.ok (devReadBytes SIZE s.dev (s.currentOffset / SIZE) (len / SIZE)),
        { s with
            dev := { s.dev with
                      log := s.dev.log ++
                        [.readEvt (s.currentOffset / SIZE) (len / SIZE)] }
            currentOffset := s.currentOffset + len })) ∧
    (devReadBytes SIZE s.dev (s.currentOffset / SIZE) (len / SIZE)).length = len ∧
    (BufStream.write SIZE ALIGN addr buf s =
      (.ok buf.length,
        { s with
            dev := { s.dev with
                      bytes := s.dev.bytes.take (s.currentOffset / SIZE * SIZE) ++ buf ++
                        s.dev.bytes.drop (s.currentOffset / SIZE * SIZE + buf.length)
                      log := s.dev.log ++
                        [.writeEvt (s.currentOffset / SIZE) (buf.length / SIZE)] }
            currentOffset := s.currentOffset + buf.length })) := by
  refine ⟨?_, ?_, ?_⟩
  · simp [BufStream.read, BufStream.readGo, hlen, haddr, hoff, devRead, hfr]
  · have hSZ : SIZE ≠ 0 := by
      intro h0
      rw [h0, Nat.mod_zero] at hlen
      exact hlen0 hlen
    simp only [devReadBytes, List.length_append, List.length_replicate,
      List.length_take]
    have : len / SIZE * SIZE = len := Nat.div_mul_cancel (Nat.dvd_of_mod_eq_zero hlen)
    omega
  · simp [BufStream.write, BufStream.writeGo, hbuf, haddr, hoff, devWrite, hfw]

/-- Witness for C2: an aligned one-block write at cursor 0 on a fresh
4-byte-block stream takes the direct path. -/
theorem bufStream_direct_mode_witness :
    (4 : Nat) % 4 = 0 ∧
    (BufStream.write 4 4 0 [5, 6, 7, 8]
        (BufStream.new 4 ⟨List.replicate 8 0, [], false, false, false⟩)).1 =
      .ok 4 := by
  have h := (bufStream_direct_mode 4 4 0 4 [5, 6, 7, 8]
    (BufStream.new 4 ⟨List.replicate 8 0, [], false, false, false⟩)
    (by decide) rfl (by decide) rfl rfl rfl rfl rfl).2.2
  refine ⟨rfl, ?_⟩
  rw [h]
  rfl

/-! ## C1: the byte-oracle refinement for BufStream

The oracle is a flat byte-addressable stream of the same length: writes
replace bytes at the cursor, seeks set the cursor, reads and flushes do
not change the contents. -/

/-- Byte-addressable oracle stream. -/
structure ByteOracle where
  bytes : List Nat
  pos : Nat
deriving DecidableEq

/-- Oracle seek (`SeekFrom::Start`). -/
def ByteOracle.seekStart (o : ByteOracle) (x : Nat) : ByteOracle :=
  { o with pos := x }

/-- Oracle write: replace `buf.length` bytes at the cursor. -/
def ByteOracle.writeBytes (o : ByteOracle) (buf : List Nat) : ByteOracle :=
  { bytes := o.bytes.take o.pos ++ buf ++ o.bytes.drop (o.pos + buf.length)
    pos := o.pos + buf.length }

/-- The C1 failing sequence on the code side (SIZE = 4, ALIGN = 4, 8-byte
device of zeros): partial write of `[1]` at offset 1, flush, direct
block-aligned write of `[5,6,7,8]` at offset 0, partial write of `[9]` at
offset 2, flush. -/
def c1Final : BufStream :=
  let s0 := BufStream.new 4 ⟨List.replicate 8 0, [], false, false, false⟩
  let s1 := (BufStream.seek s0 (.start 1)).2
  let s2 := (BufStream.write 4 4 0 [1] s1).2
  let s3 := (BufStream.flush 4 s2).2
  let s4 := (BufStream.seek s3 (.start 0)).2
  let s5 := (BufStream.write 4 4 0 [5, 6, 7, 8] s4).2
  let s6 := (BufStream.seek s5 (.start 2)).2
  let s7 := (BufStream.write 4 4 0 [9] s6).2
  (BufStream.flush 4 s7).2

/-- The same sequence of byte operations on the byte oracle. -/
def c1OracleFinal : ByteOracle :=
  let o0 : ByteOracle := ⟨List.replicate 8 0, 0⟩
  let o1 := (o0.seekStart 1).writeBytes [1]
  let o2 := (o1.seekStart 0).writeBytes [5, 6, 7, 8]
  (o2.seekStart 2).writeBytes [9]

/-- C1 fails on the code: every operation of the failing sequence
succeeds, yet the final device contents `[0,1,9,0,...]` differ from the
oracle contents `[5,6,9,8,...]` — the direct-mode write at offset 0 does
not invalidate the clean cached copy of block 0, and the later partial
write of `[9]` modifies and flushes that stale copy over the direct
write. -/
theorem bufStream_mixed_write_diverges :
    (BufStream.write 4 4 0 [1]
      (BufStream.seek (BufStream.new 4 ⟨List.replicate 8 0, [], false, false, false⟩)
        (.start 1)).2).1 = .ok 1 ∧
    c1Final.dirty = false ∧
    c1Final.dev.bytes = [0, 1, 9, 0, 0, 0, 0, 0] ∧
    c1OracleFinal.bytes = [5, 6, 9, 8, 0, 0, 0, 0] ∧
    c1Final.dev.bytes ≠ c1OracleFinal.bytes := by
  refine ⟨rfl, rfl, rfl, rfl, ?_⟩
  decide

/-! ## The CRC functions from sdspi/src/lib.rs

`u8`/`u16` arithmetic is modelled as `Nat` modulo `2^8`/`2^16`. -/

/-- One iteration of the inner bit loop of `crc7`: shift the accumulator
left (in `u8`), fold in the tap 0x09 when the top bits of the data byte
and the shifted accumulator differ, then shift the data byte. -/
def crc7Inner (p : Nat × Nat) : Nat × Nat :=
  let crc := (p.1 <<< 1) % 256
  let crc := if ((p.2 &&& 0x80) ^^^ (crc &&& 0x80)) ≠ 0 then crc ^^^ 0x09 else crc
  (crc, (p.2 <<< 1) % 256)

/-- One data byte of `crc7`: eight inner-loop iterations. -/
def crc7Byte (crc d : Nat) : Nat :=
  ((List.range 8).foldl (fun p _ => crc7Inner p) (crc, d)).1

/-- `crc7` from sdspi/src/lib.rs: fold the bytes through the bit loop,
then return `(crc << 1) | 1` in `u8`. -/
def crc7 (data : List Nat) : Nat :=
  ((data.foldl crc7Byte 0) <<< 1) % 256 ||| 1

/-- One data byte of `crc16` from sdspi/src/lib.rs: swap the accumulator
bytes, xor in the data byte, then the three table-free CCITT mixing
steps (all in `u16`). -/
def crc16Step (crc byte : Nat) : Nat :=
  let c1 := ((crc >>> 8) &&& 0xFF) ||| ((crc <<< 8) % 65536)
  let c2 := c1 ^^^ byte
  let c3 := c2 ^^^ ((c2 &&& 0xFF) >>> 4)
  let c4 := c3 ^^^ ((c3 <<< 12) % 65536)
  let c5 := c4 ^^^ (((c4 &&& 0xFF) <<< 5) % 65536)
  c5

/-- `crc16` from sdspi/src/lib.rs with initial value 0. -/
def crc16 (data : List Nat) : Nat :=
  data.foldl crc16Step 0

/-! ## The SD-SPI driver from sdspi/src/lib.rs

The SPI bus is modelled by a response script (the bytes the card will
answer on MISO; an exhausted script answers 0xFF, the idle line) plus a
log of all bus activity.  The `with_timeout` wrappers are modelled by a
`fuel` bound on each polling loop, returning `Error::Timeout` when
exhausted. -/

/-- Events on the SPI bus. -/
inductive SpiEvt where
  | writeBytes (data : List Nat)
  | transfer (n : Nat)
deriving DecidableEq

/-- The SPI device model. -/
structure Spi where
  script : List Nat
  log : List SpiEvt
deriving DecidableEq

/-- `SpiDevice::write`. -/
def spiWrite (s : Spi) (data : List Nat) : Spi :=
  { s with log := s.log ++ [.writeBytes data] }

/-- `SpiDevice::transfer_in_place` of `n` bytes, answering from the
script. -/
def spiTransfer (s : Spi) (n : Nat) : Spi × List Nat :=
  ({ script := s.script.drop n, log := s.log ++ [.transfer n] },
    s.script.take n ++ List.replicate (n - s.script.length) 0xFF)

/-- `sdio_host::sd::CardCapacity` (modelled from the sdio-host
dependency); `Default` is the standard-capacity variant. -/
inductive CardCapacity where
  | standardCapacity
  | highCapacity
deriving DecidableEq

/-- The driver's `Card` record; the register values are kept as raw
big-endian register words. -/
structure Card where
  cardType : CardCapacity
  ocr : Nat
  rca : Nat
  cid : Nat
  csd : Nat
deriving DecidableEq

/-- `Card::default()`. -/
def cardDefault : Card :=
  ⟨.standardCapacity, 0, 0, 0, 0⟩

/-- `Error` from sdspi/src/lib.rs. -/
inductive SdErr where
  | chipSelect
  | spiError
  | timeout
  | unsupportedCard
  | cmd58Error
  | cmd59Error
  | registerError (r : Nat)
  | crcMismatch (got expected : Nat)
  | notInitialized
  | writeError
deriving DecidableEq

/-- `SdSpi` driver state. -/
structure SdSpi where
  spi : Spi
  card : Option Card
deriving DecidableEq

/-- A command index/argument pair (`sdio_host::Cmd`). -/
structure CmdT where
  idx : Nat
  arg : Nat
deriving DecidableEq

/-- CMD0 `idle()` (modelled from the sdio-host dependency, like the other
command constructors below). -/
def idleCmd : CmdT := ⟨0, 0⟩

/-- CMD59 `cmd::<R1>(0x3B, 1)`: CRC on. -/
def crcOnOffCmd : CmdT := ⟨59, 1⟩

/-- CMD8 `send_if_cond(0x1, 0xAA)`: voltage in bits 8..11, check pattern
in bits 0..7. -/
def sendIfCond : CmdT := ⟨8, 0x1AA⟩

/-- ACMD41 `sd_send_op_cond(true, false, true, 0x20)`. -/
def sdSendOpCond : CmdT := ⟨41, (1 <<< 30) ||| (1 <<< 24) ||| (0x20 <<< 8)⟩

/-- CMD58 `cmd::<R3>(0x3A, 0)`: read OCR. -/
def readOcrCmd : CmdT := ⟨58, 0⟩

/-- CMD9 `send_csd(rca)`. -/
def sendCsd (rca : Nat) : CmdT := ⟨9, rca <<< 16⟩

/-- CMD10 `send_cid(rca)`. -/
def sendCid (rca : Nat) : CmdT := ⟨10, rca <<< 16⟩

/-- CMD55 `app_cmd(rca)`. -/
def appCmd (rca : Nat) : CmdT := ⟨55, rca <<< 16⟩

/-- CMD17 `read_single_block(addr)`: the block address is the argument. -/
def readSingleBlock (addr : Nat) : CmdT := ⟨17, addr⟩

/-- CMD18 `read_multiple_blocks(addr)`. -/
def readMultipleBlocks (addr : Nat) : CmdT := ⟨18, addr⟩

/-- CMD24 `write_single_block(addr)`. -/
def writeSingleBlock (addr : Nat) : CmdT := ⟨24, addr⟩

/-- CMD25 `write_multiple_blocks(addr)`. -/
def writeMultipleBlocks (addr : Nat) : CmdT := ⟨25, addr⟩

/-- CMD12 `stop_transmission()`. -/
def stopTransmission : CmdT := ⟨12, 0⟩

/-- CMD13 `sd_status()`. -/
def sdStatusCmd : CmdT := ⟨13, 0⟩

/-- ACMD23 `cmd::<R1>(0x17, count)`: pre-erase block count. -/
def setEraseCount (count : Nat) : CmdT := ⟨23, count⟩

/-- Propagate the driver state through a fallible step. -/
def sdBind {α β : Type} (r : Except SdErr α × SdSpi)
    (f : α → SdSpi → Except SdErr β × SdSpi) : Except SdErr β × SdSpi :=
  match r with
  | (.error e, s) => (.error e, s)
  | (.ok a, s) => f a s

/-- `read_byte`: a one-byte transfer-in-place. -/
def readByte (s : SdSpi) : SdSpi × Nat :=
  let t := spiTransfer s.spi 1
  ({ s with spi := t.1 }, t.2.headD 0xFF)

/-- `wait_idle`: poll until the line answers 0xFF. -/
def waitIdle : Nat → SdSpi → Except SdErr Unit × SdSpi
  | 0, s => (.error .timeout, s)
  | fuel + 1, s =>
    let r := readByte s
    if r.2 = 0xFF then (.ok (), r.1) else waitIdle fuel r.1

/-- The response poll inside `cmd`: until a byte with bit 7 clear. -/
def waitResponse : Nat → SdSpi → Except SdErr Nat × SdSpi
  | 0, s => (.error .timeout, s)
  | fuel + 1, s =>
    let r := readByte s
    if r.2 &&& 0x80 = 0 then (.ok r.2, r.1) else waitResponse fuel r.1

/-- The 6-byte command frame: `0x40 | cmd`, four big-endian argument
bytes, then the crc7 of those five bytes. -/
def cmdFrame (c : CmdT) : List Nat :=
  let hdr := [0x40 ||| c.idx, (c.arg >>> 24) % 256, (c.arg >>> 16) % 256,
    (c.arg >>> 8) % 256, c.arg % 256]
  hdr ++ [crc7 hdr]

/-- `SdSpi::cmd`: wait-idle first (except for CMD0), send the frame, skip
a stuff byte after CMD12, then poll for the response. -/
def sdCmd (fuel : Nat) (s : SdSpi) (c : CmdT) : Except SdErr Nat × SdSpi :=
  sdBind (if c.idx ≠ 0 then waitIdle fuel s else (.ok (), s)) fun _ s =>
    let s1 := { s with spi := spiWrite s.spi (cmdFrame c) }
    let s2 := if c.idx = 12 then { s1 with spi := (spiTransfer s1.spi 1).1 } else s1
    waitResponse fuel s2

/-- `SdSpi::acmd`: CMD55 with the recorded RCA (0 when uninitialized),
then the command itself. -/
def sdAcmd (fuel : Nat) (s : SdSpi) (c : CmdT) : Except SdErr Nat × SdSpi :=
  sdBind (sdCmd fuel s (appCmd (((s.card.map Card.rca).getD 0) % 65536))) fun _ s =>
    sdCmd fuel s c

/-- The data-token poll inside `read_data`: while the byte is 0xFF keep
reading. -/
def waitDataToken : Nat → SdSpi → Except SdErr Nat × SdSpi
  | 0, s => (.error .timeout, s)
  | fuel + 1, s =>
    let r := readByte s
    if r.2 ≠ 0xFF then (.ok r.2, r.1) else waitDataToken fuel r.1

/-- `SdSpi::read_data` into a buffer of length `n`: wait for the
DATA_START_BLOCK token 0xFE, transfer the payload, then transfer the two
big-endian CRC bytes and compare with `crc16` of the payload. -/
def readData (fuel : Nat) (s : SdSpi) (n : Nat) : Except SdErr (List Nat) × SdSpi :=
  sdBind (waitDataToken fuel s) fun tok s =>
    if tok ≠ 0xFE then (.error (.registerError tok), s)
    else
      let t := spiTransfer s.spi n
      let s1 := { s with spi := t.1 }
      let t2 := spiTransfer s1.spi 2
      let s2 := { s1 with spi := t2.1 }
      let crc := (t2.2.headD 0xFF) * 256 + t2.2.getD 1 0xFF
      if crc ≠ crc16 t.2 then (.error (.crcMismatch crc (crc16 t.2)), s2)
      else (.ok t.2, s2)

/-- `SdSpi::write_data`: data token, payload, big-endian CRC16, then the
data-response token must be DATA_RES_ACCEPTED. -/
def writeData (s : SdSpi) (token : Nat) (buffer : List Nat) :
    Except SdErr Unit × SdSpi :=
  let s1 := { s with spi := spiWrite s.spi [token] }
  let s2 := { s1 with spi := spiWrite s1.spi buffer }
  let c := crc16 buffer
  let s3 := { s2 with spi := spiWrite s2.spi [c >>> 8 % 256, c % 256] }
  let r := readByte s3
  if r.2 &&& 0x1F ≠ 0x05 then (.error .writeError, r.1) else (.ok (), r.1)

/-- `u128::from_be_bytes` over a byte list. -/
def beBytesToNat (bs : List Nat) : Nat :=
  bs.foldl (fun a b => a * 256 + b) 0

/-- `CSD::block_count` for a version-2 CSD (modelled from the sdio-host
dependency): `(C_SIZE + 1) * 1024` with C_SIZE in bits 48..69. -/
def csdBlockCount (csd : Nat) : Nat :=
  (((csd >>> 48) &&& 0x3FFFFF) + 1) * 1024

/-- `Card::size`: block count times 512. -/
def cardSize (c : Card) : Nat :=
  csdBlockCount c.csd * 512

/-- `SdSpi::size`: `self.card.ok_or(Error::NotInitialized)?.size()`. -/
def sdSize (s : SdSpi) : Except SdErr Nat × SdSpi :=
  match s.card with
  | none => (.error .notInitialized, s)
  | some c => (.ok (cardSize c), s)

/-- The per-block loop of the multi-block read path. -/
def readBlocksLoop (fuel SIZE : Nat) :
    Nat → List Nat → SdSpi → Except SdErr (List Nat) × SdSpi
  | 0, acc, s => (.ok acc, s)
  | k + 1, acc, s =>
    sdBind (readData fuel s SIZE) fun blk s => readBlocksLoop fuel SIZE k (acc ++ blk) s

/-- `SdSpi::read` of `count` blocks of `SIZE` bytes at `block_address`
(which goes into the command argument unchanged): CMD17 plus one data
block, or CMD18 plus `count` blocks plus CMD12.  There is no
initialization check. -/
def sdRead (fuel SIZE : Nat) (s : SdSpi) (blockAddress count : Nat) :
    Except SdErr (List Nat) × SdSpi :=
  if count = 1 then
    sdBind (sdCmd fuel s (readSingleBlock blockAddress)) fun _ s =>
      readData fuel s SIZE
  else
    sdBind (sdCmd fuel s (readMultipleBlocks blockAddress)) fun _ s =>
      sdBind (readBlocksLoop fuel SIZE count [] s) fun data s =>
        sdBind (sdCmd fuel s stopTransmission) fun _ s => (.ok data, s)

/-- The per-block loop of the multi-block write path: wait-idle then send
each block with the WRITE_MULTIPLE token. -/
def writeBlocksLoop (fuel : Nat) :
    List (List Nat) → SdSpi → Except SdErr Unit × SdSpi
  | [], s => (.ok (), s)
  | blk :: rest, s =>
    sdBind (waitIdle fuel s) fun _ s =>
      sdBind (writeData s 0xFC blk) fun _ s => writeBlocksLoop fuel rest s

/-- `SdSpi::write` of the given blocks at `block_address` (unchanged in
the command argument): CMD24 path for a single block (with the two-byte
status check), CMD25 path otherwise (ACMD23 pre-erase, blocks, stop
token).  There is no initialization check. -/
def sdWrite (fuel : Nat) (s : SdSpi) (blockAddress : Nat)
    (blocks : List (List Nat)) : Except SdErr Unit × SdSpi :=
  if blocks.length = 1 then
    sdBind (sdCmd fuel s (writeSingleBlock blockAddress)) fun _ s =>
      sdBind (writeData s 0xFE (blocks.headD [])) fun _ s =>
        sdBind (waitIdle fuel s) fun _ s =>
          sdBind (sdCmd fuel s sdStatusCmd) fun r s =>
            if r ≠ 0 then (.error .writeError, s)
            else
              let rb := readByte s
              if rb.2 ≠ 0 then (.error .writeError, rb.1) else (.ok (), rb.1)
  else
    sdBind (sdAcmd fuel s (setEraseCount blocks.length)) fun _ s =>
      sdBind (waitIdle fuel s) fun _ s =>
        sdBind (sdCmd fuel s (writeMultipleBlocks blockAddress)) fun _ s =>
          sdBind (writeBlocksLoop fuel blocks s) fun _ s =>
            sdBind (waitIdle fuel s) fun _ s =>
              (.ok (), { s with spi := spiWrite s.spi [0xFD] })

/-- The CMD0 loop of `init`: until the card answers R1 idle. -/
def initIdleLoop (fuel : Nat) : Nat → SdSpi → Except SdErr Unit × SdSpi
  | 0, s => (.error .timeout, s)
  | k + 1, s =>
    sdBind (sdCmd fuel s idleCmd) fun r s =>
      if r = 0x01 then (.ok (), s) else initIdleLoop fuel k s

/-- The CMD8 loop of `init`: illegal-command answers reject the card,
otherwise read the 4 echo bytes until the pattern 0xAA comes back. -/
def initIfCondLoop (fuel : Nat) : Nat → SdSpi → Except SdErr Unit × SdSpi
  | 0, s => (.error .timeout, s)
  | k + 1, s =>
    sdBind (sdCmd fuel s sendIfCond) fun r s =>
      if r = 0x05 then (.error .unsupportedCard, s)
      else
        let t := spiTransfer s.spi 4
        let s1 := { s with spi := t.1 }
        if t.2.getD 3 0xFF = 0xAA then (.ok (), s1) else initIfCondLoop fuel k s1

/-- The ACMD41 loop of `init`: until the card answers R1 ready. -/
def initOpCondLoop (fuel : Nat) : Nat → SdSpi → Except SdErr Unit × SdSpi
  | 0, s => (.error .timeout, s)
  | k + 1, s =>
    sdBind (sdAcmd fuel s sdSendOpCond) fun r s =>
      if r = 0x00 then (.ok (), s) else initOpCondLoop fuel k s

/-- The CMD58 loop of `init`: R1 must be ready, then read the 4 big-endian
OCR bytes and loop while the power-up busy bit (bit 31) is still clear. -/
def initOcrLoop (fuel : Nat) : Nat → SdSpi → Except SdErr Nat × SdSpi
  | 0, s => (.error .timeout, s)
  | k + 1, s =>
    sdBind (sdCmd fuel s readOcrCmd) fun r s =>
      if r ≠ 0x00 then (.error .cmd58Error, s)
      else
        let t := spiTransfer s.spi 4
        let s1 := { s with spi := t.1 }
        let ocr := t.2.getD 0 0xFF * 16777216 + t.2.getD 1 0xFF * 65536 +
          t.2.getD 2 0xFF * 256 + t.2.getD 3 0xFF
        if ocr.testBit 31 then (.ok ocr, s1) else initOcrLoop fuel k s1

/-- `SdSpi::init`: CMD0 until idle, CMD59(1) expecting idle, the CMD8
loop, the ACMD41 loop, the CMD58 loop recording the OCR, then the CSD and
CID register reads; on success the card record is stored.  Note
`card.card_type` is never assigned anywhere in `init`: it keeps the
`Card::default()` value no matter what the OCR CCS bit said. -/
def sdInit (fuel : Nat) (s : SdSpi) : Except SdErr Unit × SdSpi :=
  sdBind (initIdleLoop fuel fuel s) fun _ s =>
  sdBind (sdCmd fuel s crcOnOffCmd) fun r s =>
  sdBind (if r ≠ 0x01 then (.error .cmd59Error, s) else (.ok (), s)) fun _ s =>
  sdBind (initIfCondLoop fuel fuel s) fun _ s =>
  sdBind (initOpCondLoop fuel fuel s) fun _ s =>
  sdBind (initOcrLoop fuel fuel s) fun ocr s =>
  sdBind (sdCmd fuel s (sendCsd (cardDefault.rca % 65536))) fun r s =>
  sdBind (if r ≠ 0 then (.error (.registerError r), s) else (.ok (), s)) fun _ s =>
  sdBind (readData fuel s 16) fun csdBytes s =>
  sdBind (sdCmd fuel s (sendCid (cardDefault.rca % 65536))) fun r s =>
  sdBind (if r ≠ 0 then (.error (.registerError r), s) else (.ok (), s)) fun _ s =>
  sdBind (readData fuel s 16) fun cidBytes s =>
    (.ok (), { s with card := some { cardDefault with
      ocr := ocr
      csd := beBytesToNat csdBytes
      cid := beBytesToNat cidBytes } })

/-- An uninitialized driver whose card answers a successful single-block
read of `[1,2,3,4]` (idle byte, R1 ready, data token, payload, CRC). -/
def c7ReadSpi : SdSpi :=
  ⟨⟨[0xFF, 0x00, 0xFE, 1, 2, 3, 4, crc16 [1, 2, 3, 4] >>> 8,
     crc16 [1, 2, 3, 4] % 256], []⟩, none⟩

/-- An uninitialized driver whose card answers a successful single-block
write (idle, R1, data-response accepted, idle, idle, two status zeros). -/
def c7WriteSpi : SdSpi :=
  ⟨⟨[0xFF, 0x00, 0x05, 0xFF, 0xFF, 0x00, 0x00], []⟩, none⟩

/-- C7 counterexample: with `card = None` a single-block `read` does not
fail with `NotInitialized` — it issues SPI command traffic and (with a
cooperative card) succeeds. -/
theorem sdspi_read_uninitialized_cex :
    c7ReadSpi.card = none ∧
    (sdRead 4 4 c7ReadSpi 3 1).1 = .ok [1, 2, 3, 4] ∧
    (sdRead 4 4 c7ReadSpi 3 1).2.spi.log ≠ [] := by
  refine ⟨rfl, rfl, by decide⟩

/-- C7 amended: only `size` checks the card state — with `card = None` it
fails with `NotInitialized` without touching the bus; `read` and `write`
perform no initialization check and issue SPI command traffic even when
uninitialized (concrete cooperative runs succeed). -/
theorem sdspi_uninitialized_spec :
    (∀ s : SdSpi, s.card = none → sdSize s = (.error .notInitialized, s)) ∧
    (sdRead 4 4 c7ReadSpi 3 1).1 = .ok [1, 2, 3, 4] ∧
    (sdRead 4 4 c7ReadSpi 3 1).2.spi.log ≠ [] ∧
    (sdWrite 4 c7WriteSpi 3 [[9, 9, 9, 9]]).1 = .ok () ∧
    (sdWrite 4 c7WriteSpi 3 [[9, 9, 9, 9]]).2.spi.log ≠ [] := by
  refine ⟨fun s h => ?_, rfl, by decide, rfl, by decide⟩
  simp [sdSize, h]

/-- Witness for the amended C7: `size` on a concrete uninitialized driver. -/
theorem sdspi_uninitialized_spec_witness :
    (⟨⟨[], []⟩, none⟩ : SdSpi).card = none ∧
    sdSize ⟨⟨[], []⟩, none⟩ = (.error .notInitialized, ⟨⟨[], []⟩, none⟩) :=
  ⟨rfl, sdspi_uninitialized_spec.1 ⟨⟨[], []⟩, none⟩ rfl⟩

/-- The SPI answer script of a card that completes `init` with OCR
`0xC0000000` (power-up done, CCS set) and all-zero CSD/CID. -/
def c8Script : List Nat :=
  [0x01, 0xFF, 0x01, 0xFF, 0x01, 0x00, 0x00, 0x01, 0xAA, 0xFF, 0x01, 0xFF,
   0x00, 0xFF, 0x00, 0xC0, 0x00, 0x00, 0x00, 0xFF, 0x00, 0xFE] ++
  List.replicate 16 0 ++ [0x00, 0x00, 0xFF, 0x00, 0xFE] ++
  List.replicate 16 0 ++ [0x00, 0x00]

/-- An uninitialized driver on the `c8Script` card. -/
def c8Spi : SdSpi := ⟨⟨c8Script, []⟩, none⟩

/-- C8 counterexample: a successful `init` run whose OCR has the CCS bit
(bit 30) set still records the default (standard-capacity) card type, so
`card_type` does not indicate high capacity iff CCS was set. -/
theorem sdspi_init_ignores_ccs_cex :
    (sdInit 8 c8Spi).1 = .ok () ∧
    ((sdInit 8 c8Spi).2.card.map Card.ocr).getD 0 = 0xC0000000 ∧
    Nat.testBit 0xC0000000 30 = true ∧
    ((sdInit 8 c8Spi).2.card.map Card.cardType).getD .highCapacity =
      .standardCapacity := by
  refine ⟨rfl, rfl, by decide, rfl⟩

/-- C8 amended: `init` records the OCR it read but never derives the
capacity class from it — the stored `card_type` is the default
standard-capacity value whatever CCS said — and the `read`/`write`
commands always place `block_addr` in the command argument unchanged
(never multiplied by 512). -/
theorem sdspi_init_default_capacity :
    (sdInit 8 c8Spi).2.card =
      some { cardDefault with ocr := 0xC0000000, csd := 0, cid := 0 } ∧
    (∀ a : Nat, readSingleBlock a = ⟨17, a⟩ ∧ writeSingleBlock a = ⟨24, a⟩ ∧
      cmdFrame (readSingleBlock a) =
        [0x51, (a >>> 24) % 256, (a >>> 16) % 256, (a >>> 8) % 256, a % 256,
         crc7 [0x51, (a >>> 24) % 256, (a >>> 16) % 256, (a >>> 8) % 256,
           a % 256]]) ∧
    (sdRead 4 4 c7ReadSpi 3 1).2.spi.log.getD 1 (.transfer 0) =
      .writeBytes (cmdFrame (readSingleBlock 3)) := by
  refine ⟨rfl, fun a => ⟨rfl, rfl, ?_⟩, rfl⟩
  have h51 : (0x40 ||| 17 : Nat) = 0x51 := by decide
  simp [cmdFrame, readSingleBlock, h51]

/-! ## C9: the CRC functions against their textbook references

The reference CRCs are the bitwise MSB-first definitions from the spec:
CRC-7 with polynomial x^7 + x^3 + 1 (tap 0x09) returned as
`(crc << 1) | 1`, and CRC-16 with polynomial x^16 + x^12 + x^5 + 1
(tap 0x1021) and initial value 0. -/

/-- One bit of the reference MSB-first CRC-7 (7-bit register, tap 0x09). -/
def crc7RefBit (r : Nat) (b : Bool) : Nat :=
  let r1 := (r <<< 1) % 128
  if r.testBit 6 != b then r1 ^^^ 0x09 else r1

/-- One byte of the reference CRC-7, most significant bit first. -/
def crc7RefByte (r byte : Nat) : Nat :=
  (List.range 8).foldl (fun r i => crc7RefBit r (byte.testBit (7 - i))) r

/-- The reference CRC-7 of a byte sequence, shifted left once with the low
bit set, as the SD protocol transmits it. -/
def crc7Ref (data : List Nat) : Nat :=
  ((data.foldl crc7RefByte 0) <<< 1) ||| 1

/-- The inner bit step of the code's `crc7`, with the data byte top bit
extracted (bridging form of `crc7Inner`). -/
def crc7BitFn (c : Nat) (b : Bool) : Nat :=
  let c1 := (c <<< 1) % 256
  if b != c1.testBit 7 then c1 ^^^ 0x09 else c1

/-- Masking two numbers with 0x80 and xoring gives a nonzero value exactly
when their bits 7 differ. -/
theorem and128_xor_ne (x y : Nat) :
    ((x &&& 128) ^^^ (y &&& 128) ≠ 0) ↔ x.testBit 7 ≠ y.testBit 7 := by
  have hx : x &&& 128 = if x.testBit 7 then 128 else 0 := by
    cases h : x.testBit 7 <;>
      (apply Nat.eq_of_testBit_eq
       intro i
       rcases eq_or_ne i 7 with rfl | hi
       · simp [Nat.testBit_and, h, (rfl : (128 : Nat) = 2 ^ 7)]
       · simp [Nat.testBit_and, (rfl : (128 : Nat) = 2 ^ 7),
           Nat.testBit_two_pow_of_ne (Ne.symm hi)])
  have hy : y &&& 128 = if y.testBit 7 then 128 else 0 := by
    cases h : y.testBit 7 <;>
      (apply Nat.eq_of_testBit_eq
       intro i
       rcases eq_or_ne i 7 with rfl | hi
       · simp [Nat.testBit_and, h, (rfl : (128 : Nat) = 2 ^ 7)]
       · simp [Nat.testBit_and, (rfl : (128 : Nat) = 2 ^ 7),
           Nat.testBit_two_pow_of_ne (Ne.symm hi)])
  rw [hx, hy]
  cases h1 : x.testBit 7 <;> cases h2 : y.testBit 7 <;> simp

/-- `crc7Inner` in terms of the bridging bit step. -/
theorem crc7Inner_eq (c d : Nat) :
    crc7Inner (c, d) = (crc7BitFn c (d.testBit 7), (d <<< 1) % 256) := by
  have h := and128_xor_ne d ((c <<< 1) % 256)
  by_cases hcond : d.testBit 7 = ((c <<< 1) % 256).testBit 7
  · have h1 : ¬ ((d &&& 128) ^^^ ((c <<< 1) % 256 &&& 128) ≠ 0) := by
      rw [h]
      simpa using hcond
    simp only [crc7Inner, crc7BitFn, if_neg h1, hcond]
    simp
  · have h1 : (d &&& 128) ^^^ ((c <<< 1) % 256 &&& 128) ≠ 0 := h.mpr hcond
    simp only [crc7Inner, crc7BitFn, if_pos h1]
    rw [if_pos (by simpa using hcond)]

set_option maxRecDepth 20000 in
/-- The code bit step tracks the reference bit step through reduction
modulo 128, and stays an 8-bit value. -/
theorem crc7BitFn_rel : ∀ c < 256, ∀ b : Bool,
    crc7BitFn c b % 128 = crc7RefBit (c % 128) b ∧ crc7BitFn c b < 256 := by
  decide

/-- The code bit steps folded over a list of bits. -/
def crc7Bits (c : Nat) (bs : List Bool) : Nat :=
  bs.foldl crc7BitFn c

/-- The reference bit steps folded over a list of bits. -/
def crc7RefBits (r : Nat) (bs : List Bool) : Nat :=
  bs.foldl crc7RefBit r

/-- The mod-128 tracking extends through any list of bits. -/
theorem crc7Bits_rel : ∀ (bs : List Bool) (c : Nat), c < 256 →
    crc7Bits c bs % 128 = crc7RefBits (c % 128) bs ∧ crc7Bits c bs < 256 := by
  intro bs
  induction bs with
  | nil => exact fun c hc => ⟨rfl, hc⟩
  | cons b bs ih =>
    intro c hc
    have h := crc7BitFn_rel c hc b
    have h2 := ih (crc7BitFn c b) h.2
    simp only [crc7Bits, crc7RefBits, List.foldl] at h2 ⊢
    rw [← h.1]
    exact h2

/-- The top bit of a byte shifted left `i` places (in `u8`). -/
theorem shifted_top_bit (d i : Nat) (h : i ≤ 7) :
    ((d <<< i) % 256).testBit 7 = d.testBit (7 - i) := by
  rw [(by norm_num : (256 : Nat) = 2 ^ 8)]
  rw [Nat.testBit_mod_two_pow, Nat.testBit_shiftLeft]
  simp [h]

/-- Shifting a `u8` left twice composes. -/
theorem shift_mod_step (d i : Nat) :
    (((d <<< i) % 256) <<< 1) % 256 = (d <<< (i + 1)) % 256 := by
  rw [Nat.shiftLeft_eq ((d <<< i) % 256) 1]
  rw [Nat.mod_mul_mod]
  rw [← Nat.shiftLeft_eq]
  rw [← Nat.shiftLeft_add]

/-- The code's byte loop is the bit fold over the bits of the data byte,
most significant first. -/
theorem crc7Byte_eq_bits (c d : Nat) (hd : d < 256) :
    crc7Byte c d = crc7Bits c
      [d.testBit 7, d.testBit 6, d.testBit 5, d.testBit 4,
       d.testBit 3, d.testBit 2, d.testBit 1, d.testBit 0] := by
  have estep : ∀ (i : Nat) (x : Nat), i ≤ 7 →
      crc7Inner (x, (d <<< i) % 256) =
        (crc7BitFn x (d.testBit (7 - i)), (d <<< (i + 1)) % 256) := by
    intro i x hi
    rw [crc7Inner_eq, shifted_top_bit d i hi, shift_mod_step d i]
  have hd0 : d = (d <<< 0) % 256 := by
    rw [Nat.shiftLeft_zero, Nat.mod_eq_of_lt hd]
  simp only [crc7Byte, (rfl : List.range 8 = [0, 1, 2, 3, 4, 5, 6, 7]), List.foldl]
  conv_lhs => rw [hd0]
  rw [estep 0 c (by norm_num), estep 1 _ (by norm_num), estep 2 _ (by norm_num),
    estep 3 _ (by norm_num), estep 4 _ (by norm_num), estep 5 _ (by norm_num),
    estep 6 _ (by norm_num), estep 7 _ (by norm_num)]
  rfl

/-- The reference byte step as a bit fold. -/
theorem crc7RefByte_eq_bits (r d : Nat) :
    crc7RefByte r d = crc7RefBits r
      [d.testBit 7, d.testBit 6, d.testBit 5, d.testBit 4,
       d.testBit 3, d.testBit 2, d.testBit 1, d.testBit 0] := rfl

/-- The code byte step tracks the reference byte step modulo 128. -/
theorem crc7Byte_rel (c d : Nat) (hc : c < 256) (hd : d < 256) :
    crc7Byte c d % 128 = crc7RefByte (c % 128) d ∧ crc7Byte c d < 256 := by
  rw [crc7Byte_eq_bits c d hd, crc7RefByte_eq_bits]
  exact crc7Bits_rel _ c hc

/-- The tracking extends over a whole byte sequence. -/
theorem crc7Fold_rel : ∀ (data : List Nat) (c : Nat), c < 256 →
    (∀ x ∈ data, x < 256) →
    (data.foldl crc7Byte c) % 128 = data.foldl crc7RefByte (c % 128) ∧
      data.foldl crc7Byte c < 256 := by
  intro data
  induction data with
  | nil => exact fun c hc _ => ⟨rfl, hc⟩
  | cons x xs ih =>
    intro c hc hmem
    have hx : x < 256 := hmem x (by simp)
    have h := crc7Byte_rel c x hc hx
    have h2 := ih (crc7Byte c x) h.2 (fun y hy => hmem y (by simp [hy]))
    simp only [List.foldl]
    rw [← h.1]
    exact h2

/-- The code's `crc7` equals the reference CRC-7 on byte sequences. -/
theorem crc7_eq_ref (data : List Nat) (h : ∀ x ∈ data, x < 256) :
    crc7 data = crc7Ref data := by
  unfold crc7 crc7Ref
  have hrel := crc7Fold_rel data 0 (by norm_num) h
  have hC : (data.foldl crc7Byte 0 <<< 1) % 256 =
      (data.foldl crc7RefByte 0) <<< 1 := by
    rw [Nat.shiftLeft_eq _ 1, Nat.shiftLeft_eq _ 1, pow_one]
    rw [(by norm_num : (256 : Nat) = 128 * 2)]
    rw [Nat.mul_mod_mul_right]
    rw [hrel.1]
  rw [hC]

/-- One bit of the reference MSB-first CRC-16 (tap 0x1021). -/
def crc16RefBit (crc : Nat) (b : Bool) : Nat :=
  let c := (crc <<< 1) % 65536
  if crc.testBit 15 != b then c ^^^ 0x1021 else c

/-- One byte of the reference CRC-16, most significant bit first. -/
def crc16RefByte (crc byte : Nat) : Nat :=
  (List.range 8).foldl (fun c i => crc16RefBit c (byte.testBit (7 - i))) crc

/-- The reference CRC-16 of a byte sequence, initial value 0. -/
def crc16Ref (data : List Nat) : Nat :=
  data.foldl crc16RefByte 0

/-- Xor distributes through truncation to `2^n` bits. -/
theorem natXorMod (x y n : Nat) : (x ^^^ y) % 2 ^ n = x % 2 ^ n ^^^ y % 2 ^ n := by
  apply Nat.eq_of_testBit_eq
  intro i
  by_cases h : i < n <;>
    simp [Nat.testBit_mod_two_pow, Nat.testBit_xor, h]

/-- Xor distributes through right shifts. -/
theorem natXorShr (x y k : Nat) : (x ^^^ y) >>> k = x >>> k ^^^ y >>> k := by
  apply Nat.eq_of_testBit_eq
  intro i
  simp

/-- Xor distributes through left shifts. -/
theorem natXorShl (x y k : Nat) : (x ^^^ y) <<< k = x <<< k ^^^ y <<< k := by
  apply Nat.eq_of_testBit_eq
  intro i
  by_cases h : i ≥ k <;>
    simp [Nat.testBit_shiftLeft, Nat.testBit_xor, h]

/-- Rearranging a xor of four terms. -/
theorem xorMix (a b p q : Nat) :
    (a ^^^ b) ^^^ (p ^^^ q) = (a ^^^ p) ^^^ (b ^^^ q) := by
  rw [Nat.xor_assoc, Nat.xor_assoc, ← Nat.xor_assoc b p q, Nat.xor_comm b p,
    Nat.xor_assoc p b q]

/-- The byte-swap stage of `crc16Step`. -/
def crc16Swap (c : Nat) : Nat :=
  ((c >>> 8) &&& 0xFF) ||| ((c <<< 8) % 65536)

/-- The first mixing stage of `crc16Step`. -/
def crc16M1 (t : Nat) : Nat :=
  t ^^^ ((t &&& 0xFF) >>> 4)

/-- The second mixing stage of `crc16Step`. -/
def crc16M2 (t : Nat) : Nat :=
  t ^^^ ((t <<< 12) % 65536)

/-- The third mixing stage of `crc16Step`. -/
def crc16M3 (t : Nat) : Nat :=
  t ^^^ (((t &&& 0xFF) <<< 5) % 65536)

/-- `crc16Step` as the composition of its stages. -/
theorem crc16Step_stages (c b : Nat) :
    crc16Step c b = crc16M3 (crc16M2 (crc16M1 (crc16Swap c ^^^ b))) := rfl

/-- The byte-swap stage is xor-linear. -/
theorem crc16Swap_xor (x y : Nat) :
    crc16Swap (x ^^^ y) = crc16Swap x ^^^ crc16Swap y := by
  apply Nat.eq_of_testBit_eq
  intro i
  simp only [crc16Swap, (by norm_num : (65536 : Nat) = 2 ^ 16),
    (by norm_num : (0xFF : Nat) = 2 ^ 8 - 1),
    Nat.testBit_or, Nat.testBit_and, Nat.testBit_xor, Nat.testBit_shiftRight,
    Nat.testBit_shiftLeft, Nat.testBit_mod_two_pow, Nat.testBit_two_pow_sub_one]
  rcases Nat.lt_or_ge i 8 with h8 | h8
  · simp [decide_eq_true (show i < 8 from h8), decide_eq_true (show i < 16 by omega),
      decide_eq_false (show ¬ 8 ≤ i by omega)]
  · rcases Nat.lt_or_ge i 16 with h16 | h16
    · simp [decide_eq_false (show ¬ i < 8 by omega), decide_eq_true (show i < 16 from h16),
        decide_eq_true (show 8 ≤ i from h8)]
    · simp [decide_eq_false (show ¬ i < 8 by omega),
        decide_eq_false (show ¬ i < 16 by omega)]

/-- The first mixing stage is xor-linear. -/
theorem crc16M1_xor (x y : Nat) : crc16M1 (x ^^^ y) = crc16M1 x ^^^ crc16M1 y := by
  unfold crc16M1
  rw [Nat.and_xor_distrib_right, natXorShr]
  exact xorMix x y _ _

/-- The second mixing stage is xor-linear. -/
theorem crc16M2_xor (x y : Nat) : crc16M2 (x ^^^ y) = crc16M2 x ^^^ crc16M2 y := by
  unfold crc16M2
  rw [natXorShl, (by norm_num : (65536 : Nat) = 2 ^ 16), natXorMod]
  exact xorMix x y _ _

/-- The third mixing stage is xor-linear. -/
theorem crc16M3_xor (x y : Nat) : crc16M3 (x ^^^ y) = crc16M3 x ^^^ crc16M3 y := by
  unfold crc16M3
  rw [Nat.and_xor_distrib_right, natXorShl, (by norm_num : (65536 : Nat) = 2 ^ 16),
    natXorMod]
  exact xorMix x y _ _

/-- The whole code byte step is xor-linear in register and data byte. -/
theorem crc16Step_xor (c d b e : Nat) :
    crc16Step (c ^^^ d) (b ^^^ e) = crc16Step c b ^^^ crc16Step d e := by
  rw [crc16Step_stages, crc16Step_stages, crc16Step_stages, crc16Swap_xor,
    xorMix (crc16Swap c) (crc16Swap d) b e, crc16M1_xor, crc16M2_xor, crc16M3_xor]

/-- The reference bit step split into shift part and conditional tap. -/
theorem crc16RefBit_split (c : Nat) (b : Bool) :
    crc16RefBit c b =
      ((c <<< 1) % 65536) ^^^ (if c.testBit 15 != b then 0x1021 else 0) := by
  unfold crc16RefBit
  cases h : c.testBit 15 != b <;> simp [h]

/-- The conditional tap is xor-linear in the two bit pairs. -/
theorem condXor4 (p q u v : Bool) (z : Nat) :
    (if ((p ^^ q) != (u ^^ v)) then z else 0) =
      (if p != u then z else 0) ^^^ (if q != v then z else 0) := by
  cases p <;> cases q <;> cases u <;> cases v <;> simp

/-- The reference bit step is xor-linear. -/
theorem crc16RefBit_xor (c d : Nat) (b e : Bool) :
    crc16RefBit (c ^^^ d) (b ^^ e) = crc16RefBit c b ^^^ crc16RefBit d e := by
  rw [crc16RefBit_split, crc16RefBit_split, crc16RefBit_split]
  rw [natXorShl, (by norm_num : (65536 : Nat) = 2 ^ 16), natXorMod]
  rw [Nat.testBit_xor, condXor4]
  exact xorMix _ _ _ _

/-- The bits of a byte, most significant first. -/
def bitsOf (b : Nat) : List Bool :=
  [b.testBit 7, b.testBit 6, b.testBit 5, b.testBit 4,
   b.testBit 3, b.testBit 2, b.testBit 1, b.testBit 0]

/-- Bitwise xor of bytes is pointwise xor of their bit lists. -/
theorem bitsOf_xor (b e : Nat) :
    bitsOf (b ^^^ e) = List.zipWith (fun u v : Bool => u ^^ v) (bitsOf b) (bitsOf e) := by
  simp only [bitsOf, Nat.testBit_xor, List.zipWith_cons_cons, List.zipWith_nil_left]

/-- The reference bit steps folded over a list of bits. -/
def crc16RefBits (c : Nat) (bs : List Bool) : Nat :=
  bs.foldl crc16RefBit c

/-- The reference bit fold is xor-linear. -/
theorem crc16RefBits_xor : ∀ (bs es : List Bool) (c d : Nat),
    bs.length = es.length →
    crc16RefBits (c ^^^ d) (List.zipWith (fun u v : Bool => u ^^ v) bs es) =
      crc16RefBits c bs ^^^ crc16RefBits d es := by
  intro bs
  induction bs with
  | nil =>
    intro es c d hl
    cases es
    · rfl
    · simp at hl
  | cons b bs ih =>
    intro es c d hl
    cases es with
    | nil => simp at hl
    | cons e es =>
      simp only [List.zipWith_cons_cons, crc16RefBits, List.foldl_cons]
      rw [crc16RefBit_xor]
      exact ih es _ _ (by simpa using hl)

/-- The reference byte step as a bit fold. -/
theorem crc16RefByte_eq_bits (c b : Nat) :
    crc16RefByte c b = crc16RefBits c (bitsOf b) := rfl

/-- The reference byte step is xor-linear. -/
theorem crc16RefByte_xor (c d b e : Nat) :
    crc16RefByte (c ^^^ d) (b ^^^ e) = crc16RefByte c b ^^^ crc16RefByte d e := by
  rw [crc16RefByte_eq_bits, crc16RefByte_eq_bits, crc16RefByte_eq_bits, bitsOf_xor]
  exact crc16RefBits_xor _ _ _ _ (by simp [bitsOf])

/-- A number below `2^(n+1)` splits as its low `n` bits xor its top bit. -/
theorem mod_xor_top (n c : Nat) (h : c < 2 ^ (n + 1)) :
    c = (c % 2 ^ n) ^^^ (2 ^ n * (c / 2 ^ n)) := by
  have h2 : c / 2 ^ n < 2 := by
    have hh := h
    rw [Nat.pow_succ] at hh
    exact (Nat.div_lt_iff_lt_mul (by positivity)).mpr (by omega)
  have hq : c / 2 ^ n = 0 ∨ c / 2 ^ n = 1 := by
    rcases Nat.lt_trichotomy (c / 2 ^ n) 1 with hx | hx | hx
    · exact Or.inl (Nat.lt_one_iff.mp hx)
    · exact Or.inr hx
    · exact absurd hx (Nat.not_lt.mpr (Nat.lt_succ_iff.mp h2))
  rcases hq with hq | hq
  · have hc : c < 2 ^ n := (Nat.div_eq_zero_iff (by positivity)).mp hq
    rw [hq, Nat.mul_zero, Nat.xor_zero, Nat.mod_eq_of_lt hc]
  · rw [hq, Nat.mul_one]
    apply Nat.eq_of_testBit_eq
    intro i
    rcases Nat.lt_trichotomy i n with hi | hi | hi
    · simp [Nat.testBit_xor, Nat.testBit_mod_two_pow, hi,
        Nat.testBit_two_pow_of_ne (by omega : n ≠ i)]
    · subst hi
      rw [Nat.testBit_xor, @Nat.testBit_to_div_mod i c, hq]
      simp [Nat.testBit_mod_two_pow, Nat.testBit_two_pow_self]
    · have hbit : c.testBit i = false :=
        Nat.testBit_lt_two_pow
          (Nat.lt_of_lt_of_le h (Nat.pow_le_pow_right (by norm_num) hi))
      simp [Nat.testBit_xor, Nat.testBit_mod_two_pow, (by omega : ¬ i < n),
        Nat.testBit_two_pow_of_ne (by omega : n ≠ i), hbit]

set_option maxRecDepth 20000 in
/-- The code and reference byte steps agree on the 16 register basis
vectors. -/
theorem crc16Basis16 : ∀ i < 16, crc16Step (2 ^ i) 0 = crc16RefByte (2 ^ i) 0 := by
  decide

set_option maxRecDepth 20000 in
/-- The code and reference byte steps agree on the 8 data basis vectors. -/
theorem crc16Basis8 : ∀ j < 8, crc16Step 0 (2 ^ j) = crc16RefByte 0 (2 ^ j) := by
  decide

/-- Agreement with zero data byte on all 16-bit registers, by bit
decomposition through linearity. -/
theorem crc16AgreeC : ∀ n : Nat, n ≤ 16 → ∀ c, c < 2 ^ n →
    crc16Step c 0 = crc16RefByte c 0 := by
  intro n
  induction n with
  | zero =>
    intro _ c hc
    norm_num at hc
    subst hc
    decide
  | succ n ih =>
    intro hn c hc
    by_cases hsmall : c < 2 ^ n
    · exact ih (by omega) c hsmall
    · have hq : c / 2 ^ n = 1 := by
        have h1 : 1 ≤ c / 2 ^ n :=
          (Nat.one_le_div_iff (by positivity)).mpr (Nat.le_of_not_lt hsmall)
        have h2 : c / 2 ^ n < 2 := by
          have hh := hc
          rw [Nat.pow_succ] at hh
          exact (Nat.div_lt_iff_lt_mul (by positivity)).mpr (by omega)
        omega
      have key := mod_xor_top n c hc
      rw [hq, Nat.mul_one] at key
      have hmod : c % 2 ^ n < 2 ^ n := Nat.mod_lt _ (by positivity)
      rw [key]
      have h1 : crc16Step (c % 2 ^ n ^^^ 2 ^ n) 0 =
          crc16Step (c % 2 ^ n) 0 ^^^ crc16Step (2 ^ n) 0 := by
        simpa using crc16Step_xor (c % 2 ^ n) (2 ^ n) 0 0
      have h2 : crc16RefByte (c % 2 ^ n ^^^ 2 ^ n) 0 =
          crc16RefByte (c % 2 ^ n) 0 ^^^ crc16RefByte (2 ^ n) 0 := by
        simpa using crc16RefByte_xor (c % 2 ^ n) (2 ^ n) 0 0
      rw [h1, h2, ih (by omega) _ hmod, crc16Basis16 n (by omega)]

/-- Agreement with zero register on all data bytes. -/
theorem crc16AgreeB : ∀ n : Nat, n ≤ 8 → ∀ b, b < 2 ^ n →
    crc16Step 0 b = crc16RefByte 0 b := by
  intro n
  induction n with
  | zero =>
    intro _ b hb
    norm_num at hb
    subst hb
    decide
  | succ n ih =>
    intro hn b hb
    by_cases hsmall : b < 2 ^ n
    · exact ih (by omega) b hsmall
    · have hq : b / 2 ^ n = 1 := by
        have h1 : 1 ≤ b / 2 ^ n :=
          (Nat.one_le_div_iff (by positivity)).mpr (Nat.le_of_not_lt hsmall)
        have h2 : b / 2 ^ n < 2 := by
          have hh := hb
          rw [Nat.pow_succ] at hh
          exact (Nat.div_lt_iff_lt_mul (by positivity)).mpr (by omega)
        omega
      have key := mod_xor_top n b hb
      rw [hq, Nat.mul_one] at key
      have hmod : b % 2 ^ n < 2 ^ n := Nat.mod_lt _ (by positivity)
      rw [key]
      have h1 : crc16Step 0 (b % 2 ^ n ^^^ 2 ^ n) =
          crc16Step 0 (b % 2 ^ n) ^^^ crc16Step 0 (2 ^ n) := by
        simpa using crc16Step_xor 0 0 (b % 2 ^ n) (2 ^ n)
      have h2 : crc16RefByte 0 (b % 2 ^ n ^^^ 2 ^ n) =
          crc16RefByte 0 (b % 2 ^ n) ^^^ crc16RefByte 0 (2 ^ n) := by
        simpa using crc16RefByte_xor 0 0 (b % 2 ^ n) (2 ^ n)
      rw [h1, h2, ih (by omega) _ hmod, crc16Basis8 n (by omega)]

/-- The code's byte step equals the reference byte step on 16-bit
registers and 8-bit data. -/
theorem crc16Step_eq_ref (c b : Nat) (hc : c < 65536) (hb : b < 256) :
    crc16Step c b = crc16RefByte c b := by
  have h1 : crc16Step c b = crc16Step c 0 ^^^ crc16Step 0 b := by
    simpa using crc16Step_xor c 0 0 b
  have h2 : crc16RefByte c b = crc16RefByte c 0 ^^^ crc16RefByte 0 b := by
    simpa using crc16RefByte_xor c 0 0 b
  rw [h1, h2, crc16AgreeC 16 (by norm_num) c (by omega),
    crc16AgreeB 8 (by norm_num) b (by omega)]

/-- A reference bit step keeps the register below `2^16`. -/
theorem crc16RefBit_lt (c : Nat) (b : Bool) : crc16RefBit c b < 65536 := by
  rw [crc16RefBit_split, (by norm_num : (65536 : Nat) = 2 ^ 16)]
  have h1 : (c <<< 1) % 2 ^ 16 < 2 ^ 16 := Nat.mod_lt _ (by positivity)
  cases h : c.testBit 15 != b
  · simpa [h] using h1
  · simp only [h, if_pos]
    exact Nat.xor_lt_two_pow h1 (by norm_num)

/-- The reference bit fold keeps the register below `2^16`. -/
theorem crc16RefBits_lt : ∀ (bs : List Bool) (c : Nat), c < 65536 →
    crc16RefBits c bs < 65536 := by
  intro bs
  induction bs with
  | nil => exact fun c hc => hc
  | cons b bs ih => exact fun c _ => ih _ (crc16RefBit_lt c b)

/-- The reference byte step keeps the register below `2^16`. -/
theorem crc16RefByte_lt (c b : Nat) (hc : c < 65536) : crc16RefByte c b < 65536 := by
  rw [crc16RefByte_eq_bits]
  exact crc16RefBits_lt _ _ hc

/-- The code and reference folds agree on all byte sequences. -/
theorem crc16Fold_eq : ∀ (data : List Nat) (c : Nat), c < 65536 →
    (∀ x ∈ data, x < 256) →
    data.foldl crc16Step c = data.foldl crc16RefByte c := by
  intro data
  induction data with
  | nil => intros; rfl
  | cons x xs ih =>
    intro c hc hmem
    simp only [List.foldl_cons]
    rw [crc16Step_eq_ref c x hc (hmem x (by simp))]
    exact ih _ (crc16RefByte_lt c x hc) (fun y hy => hmem y (by simp [hy]))

/-- C9: on every byte sequence, the code's `crc7` equals the reference
MSB-first CRC-7 with tap 0x09 (shifted left once with the low bit set),
and the code's `crc16` equals the reference MSB-first CRC-16 with
polynomial 0x1021 and initial value 0. -/
theorem crc_matches_reference (data : List Nat) (h : ∀ x ∈ data, x < 256) :
    crc7 data = crc7Ref data ∧ crc16 data = crc16Ref data := by
  refine ⟨crc7_eq_ref data h, ?_⟩
  unfold crc16 crc16Ref
  exact crc16Fold_eq data 0 (by norm_num) h

/-- Witness for C9 on a concrete 5-byte command header. -/
theorem crc_matches_reference_witness :
    (∀ x ∈ [0x40, 0x00, 0x00, 0x00, 0x00], x < 256) ∧
    (crc7 [0x40, 0x00, 0x00, 0x00, 0x00] = crc7Ref [0x40, 0x00, 0x00, 0x00, 0x00] ∧
      crc16 [0x40, 0x00, 0x00, 0x00, 0x00] =
        crc16Ref [0x40, 0x00, 0x00, 0x00, 0x00]) :=
  ⟨by decide, crc_matches_reference [0x40, 0x00, 0x00, 0x00, 0x00] (by decide)⟩
